import Mathlib

/-!
Verification of the Redis coordination core of `lvrgd-common`
(`src/lvrgd/common/services/redis/async_redis_service.py`): the cache-aside
layer (`get_or_compute`, the `cache` decorator, `_generate_cache_key`,
`_serialize_cache_arg`) and the rate limiter (`check_rate_limit`,
`_check_rate_limit_sliding`, `_check_rate_limit_fixed`), shallowly embedded
over an explicit key-value store state.

Modelling conventions:
* Python JSON-serializable values are `JVal`; a Python object that may be
  `None` is `Option JVal` (`none` models Python `None`).  `json.dumps`
  followed by `json.loads` is the identity on such values, so the store holds
  the JSON document itself (`CVal.jdoc`); the crucial Python conflation of
  "key absent" and "stored JSON null" is captured by both deserializing to
  `none`.
* Timestamps (`time.time()`, fractional seconds) are rationals `ℚ`.
* Store connectivity failures are injected through an explicit per-call fault
  schedule (`CState.faults`); an operation whose scheduled fault bit is `true`
  raises a connectivity error.
* Redis `EXPIRE` with a non-positive timeout deletes the key, and a
  command of the wrong type for the stored value (e.g. `INCR` on a sorted
  set) raises; both are modelled.
-/

/-- JSON values (without null): Python `None` / JSON `null` is modelled by
`Option JVal = none` throughout, mirroring Python's single `None`. -/
inductive JVal
  | bool (b : Bool)
  | num (n : ℤ)
  | str (s : String)
  | arr (xs : List JVal)
  | obj (kvs : List (String × JVal))

/-- A Python object that may be `None`: `none` is Python `None` (JSON null). -/
abbrev PyObj := Option JVal

/-- `_apply_namespace`: prefix the key with `"<namespace>:"` when the
configured namespace is truthy (present and non-empty). -/
def applyNs (ns : Option String) (key : String) : String :=
  match ns with
  | some n => if n = "" then key else n ++ ":" ++ key
  | none => key

/-- Association-list lookup for the store (first binding wins, as there is at
most one binding per key by construction of `setA`/`removeA`). -/
def lookupA {α : Type} : List (String × α) → String → Option α
  | [], _ => none
  | (k, v) :: rest, key => if k = key then some v else lookupA rest key

/-- Association-list update: replace the binding in place, or append. -/
def setA {α : Type} : List (String × α) → String → α → List (String × α)
  | [], key, v => [(key, v)]
  | (k, w) :: rest, key, v =>
      if k = key then (k, v) :: rest else (k, w) :: setA rest key v

/-- Association-list removal of every binding of `key`. -/
def removeA {α : Type} : List (String × α) → String → List (String × α)
  | [], _ => []
  | (k, w) :: rest, key =>
      if k = key then removeA rest key else (k, w) :: removeA rest key

theorem lookupA_setA_self {α : Type} (st : List (String × α)) (k : String) (v : α) :
    lookupA (setA st k v) k = some v := by
  induction st with
  | nil => simp [setA, lookupA]
  | cons hd tl ih =>
      obtain ⟨k', v'⟩ := hd
      by_cases h : k' = k <;> simp [setA, lookupA, h, ih]

theorem lookupA_setA_ne {α : Type} (st : List (String × α)) (k k' : String) (v : α)
    (h : k ≠ k') : lookupA (setA st k v) k' = lookupA st k' := by
  induction st with
  | nil => simp [setA, lookupA, h]
  | cons hd tl ih =>
      obtain ⟨k0, v0⟩ := hd
      by_cases h0 : k0 = k
      · subst h0; simp [setA, lookupA, h]
      · simp [setA, lookupA, h0, ih]

theorem lookupA_removeA_self {α : Type} (st : List (String × α)) (k : String) :
    lookupA (removeA st k) k = none := by
  induction st with
  | nil => simp [removeA, lookupA]
  | cons hd tl ih =>
      obtain ⟨k0, v0⟩ := hd
      by_cases h0 : k0 = k <;> simp [removeA, lookupA, h0, ih]

theorem lookupA_removeA_ne {α : Type} (st : List (String × α)) (k k' : String)
    (h : k ≠ k') : lookupA (removeA st k) k' = lookupA st k' := by
  induction st with
  | nil => simp [removeA, lookupA]
  | cons hd tl ih =>
      obtain ⟨k0, v0⟩ := hd
      by_cases h0 : k0 = k
      · subst h0; simp [removeA, lookupA, h, Ne.symm h, ih]
      · simp [removeA, lookupA, h0, ih]

theorem length_applyNs (ns : Option String) (key : String) :
    (applyNs ns key).length = (applyNs ns "").length + key.length := by
  cases ns with
  | none => simp [applyNs]
  | some n =>
      by_cases h : n = ""
      · simp [applyNs, h]
      · have e1 : applyNs (some n) key = n ++ ":" ++ key := if_neg h
        have e2 : applyNs (some n) "" = n ++ ":" ++ "" := if_neg h
        rw [e1, e2]
        simp [String.length_append]

/-- The namespaced lock key is never the namespaced cache key: the lock key
is five characters longer. -/
theorem applyNs_lock_ne (ns : Option String) (key : String) :
    applyNs ns (key ++ ":lock") ≠ applyNs ns key := by
  intro h
  have h6 : (":lock" : String).length = 5 := rfl
  have hlen := congrArg String.length h
  rw [length_applyNs ns (key ++ ":lock"), length_applyNs ns key,
    String.length_append, h6] at hlen
  omega

/-! ## Rate limiter (`check_rate_limit` and helpers)

The rate limiter keeps all state in the store: a sorted set of request
timestamps for the sliding window, an integer counter for the fixed window.
Redis has a single keyspace, so both live in one store whose values are
`RateVal`; a command applied to a value of the wrong type raises, which the
model signals with `Except.error`. -/

/-- A rate-limit store value: an integer counter (with optional TTL) or a
sorted set of timestamps (member and score are both the timestamp, exactly
as `zadd(key, {str(now): now})` stores them). -/
inductive RateVal
  | counter (count : ℤ) (ttl : Option ℤ)
  | zset (members : List ℚ) (ttl : Option ℤ)
deriving DecidableEq

/-- The rate-limit keyspace. -/
abbrev RateStore := List (String × RateVal)

/-- `incr(key, 1)`: namespaced; creates the key at 1 with no TTL when absent,
raises on a value of the wrong type. Returns the post-increment count. -/
def op_incr (ns : Option String) (st : RateStore) (key : String) :
    Except Unit (ℤ × RateStore) :=
  let nk := applyNs ns key
  match lookupA st nk with
  | some (.zset _ _) => .error ()
  | some (.counter c t) => .ok (c + 1, setA st nk (.counter (c + 1) t))
  | none => .ok (1, setA st nk (.counter 1 none))

/-- `expire(key, seconds)`: namespaced; Redis deletes the key outright when
the timeout is non-positive. Returns whether the key existed. -/
def op_expire (ns : Option String) (st : RateStore) (key : String) (seconds : ℤ) :
    Except Unit (Bool × RateStore) :=
  let nk := applyNs ns key
  match lookupA st nk with
  | none => .ok (false, st)
  | some v =>
      if seconds ≤ 0 then .ok (true, removeA st nk)
      else
        let v' := match v with
          | .counter c _ => RateVal.counter c (some seconds)
          | .zset ms _ => RateVal.zset ms (some seconds)
        .ok (true, setA st nk v')

/-- `zremrangebyscore(key, 0, window_start)` applied to a member list:
removes every member with score in `[0, window_start]`. -/
def pruneMs (windowStart : ℚ) (ms : List ℚ) : List ℚ :=
  ms.filter (fun x => !(decide ((0 : ℚ) ≤ x) && decide (x ≤ windowStart)))

/-- `zadd(key, {str(now): now})` applied to a member list: adding an already
present member only re-scores it (here a no-op, the member is its score). -/
def zaddNow (now : ℚ) (ms : List ℚ) : List ℚ :=
  if now ∈ ms then ms else ms ++ [now]

/-- `_check_rate_limit_sliding`: one atomic pipeline on the RAW key (the
pipeline commands are issued on `self._client` directly, so `_apply_namespace`
is never applied): prune `[0, now − window_seconds]`, read the cardinality,
add the current timestamp, refresh the TTL to `window_seconds` (for a
non-positive window the final `expire` deletes the key). Returns
`(is_allowed, remaining)` with `is_allowed = current_count < max_requests`
and `remaining = max(0, max_requests − current_count − 1)`. -/
def check_rate_limit_sliding (st : RateStore) (key : String)
    (max_requests window_seconds : ℤ) (now : ℚ) :
    Except Unit ((Bool × ℤ) × RateStore) :=
  match lookupA st key with
  | some (.counter _ _) => .error ()
  | e =>
      let ms := match e with
        | some (.zset ms _) => ms
        | _ => []
      let window_start := now - (window_seconds : ℚ)
      let pruned := pruneMs window_start ms
      let current_count : ℤ := pruned.length
      let added := zaddNow now pruned
      let st' :=
        if window_seconds ≤ 0 then removeA st key
        else setA st key (.zset added (some window_seconds))
      .ok ((decide (current_count < max_requests),
            max 0 (max_requests - current_count - 1)), st')

/-- `_check_rate_limit_fixed`: `incr(key, 1)`; if the resulting count is 1,
`expire(key, window_seconds)`; `allowed = count <= max_requests`,
`remaining = max(0, max_requests - count)`. Both store calls are namespaced. -/
def check_rate_limit_fixed (ns : Option String) (st : RateStore) (key : String)
    (max_requests window_seconds : ℤ) :
    Except Unit ((Bool × ℤ) × RateStore) :=
  match op_incr ns st key with
  | .error e => .error e
  | .ok (current_count, st1) =>
      match (if current_count = 1 then op_expire ns st1 key window_seconds
             else .ok (true, st1)) with
      | .error e => .error e
      | .ok (_, st2) =>
          .ok ((decide (current_count ≤ max_requests),
                max 0 (max_requests - current_count)), st2)

/-- `check_rate_limit`: dispatch on `sliding` with no parameter validation of
any kind before the store calls. -/
def check_rate_limit (ns : Option String) (st : RateStore) (key : String)
    (max_requests window_seconds : ℤ) (sliding : Bool) (now : ℚ) :
    Except Unit ((Bool × ℤ) × RateStore) :=
  if sliding then check_rate_limit_sliding st key max_requests window_seconds now
  else check_rate_limit_fixed ns st key max_requests window_seconds

/-- Iterate `check_rate_limit(key, max_requests, window_seconds, sliding=True)`
over a list of request timestamps, collecting the `(is_allowed, remaining)`
pairs. -/
def runSliding (ns : Option String) (key : String)
    (max_requests window_seconds : ℤ) :
    RateStore → List ℚ → Except Unit (List (Bool × ℤ) × RateStore)
  | st, [] => .ok ([], st)
  | st, t :: ts =>
      match check_rate_limit ns st key max_requests window_seconds true t with
      | .error e => .error e
      | .ok (r, st') =>
          match runSliding ns key max_requests window_seconds st' ts with
          | .error e => .error e
          | .ok (rs, stf) => .ok (r :: rs, stf)

/-- The sliding window stored at a key: `[]` when the key is absent, `none`
when the key holds a value of the wrong type. -/
def windowAt (st : RateStore) (key : String) : Option (List ℚ) :=
  match lookupA st key with
  | none => some []
  | some (.zset ms _) => some ms
  | some (.counter _ _) => none

/-- The fixed-window counter and TTL stored at a (namespaced) key. -/
def counterAt (st : RateStore) (nk : String) : Option (ℤ × Option ℤ) :=
  match lookupA st nk with
  | some (.counter c t) => some (c, t)
  | _ => none

theorem setA_setA {α : Type} (st : List (String × α)) (k : String) (v v' : α) :
    setA (setA st k v) k v' = setA st k v' := by
  induction st with
  | nil => simp [setA]
  | cons hd tl ih =>
      obtain ⟨k0, v0⟩ := hd
      by_cases h : k0 = k <;> simp [setA, h, ih]

theorem mem_zaddNow (now : ℚ) (ms : List ℚ) : now ∈ zaddNow now ms := by
  unfold zaddNow
  by_cases h : now ∈ ms <;> simp [h]

theorem fst_mk_eq_false_iff (p : Prop) [Decidable p] (b : ℤ) :
    ((decide p, b) : Bool × ℤ).1 = false ↔ ¬ p := by simp

/-- C5: a fixed-window check increments the counter by exactly one, sets the
TTL to `window_seconds` exactly when the resulting count is 1 and leaves the
TTL untouched on every other increment, and returns
`allowed = (count ≤ max_requests)`, `remaining = max 0 (max_requests − count)`. -/
theorem fixed_window_step (ns : Option String) (st : RateStore) (key : String)
    (m w c0 : ℤ) (t0 : Option ℤ) (now : ℚ) (hw : 0 < w)
    (hent : lookupA st (applyNs ns key) = some (.counter c0 t0) ∨
      (lookupA st (applyNs ns key) = none ∧ c0 = 0 ∧ t0 = none)) :
    check_rate_limit ns st key m w false now =
      .ok ((decide (c0 + 1 ≤ m), max 0 (m - (c0 + 1))),
        setA st (applyNs ns key)
          (.counter (c0 + 1) (if c0 + 1 = 1 then some w else t0))) := by
  have hw' : ¬ w ≤ 0 := not_le.mpr hw
  rcases hent with h | ⟨h, hc, ht⟩
  · by_cases h1 : c0 + 1 = 1
    · simp [check_rate_limit, check_rate_limit_fixed, op_incr, op_expire, h, h1,
        lookupA_setA_self, setA_setA, hw']
    · simp [check_rate_limit, check_rate_limit_fixed, op_incr, op_expire, h, h1]
  · subst hc; subst ht
    simp [check_rate_limit, check_rate_limit_fixed, op_incr, op_expire, h,
      lookupA_setA_self, setA_setA, hw']

theorem fixed_window_step_witness :
    check_rate_limit none [("k", RateVal.counter 2 (some 9))] "k" 5 9 false 1 =
      .ok ((decide ((2:ℤ) + 1 ≤ 5), max 0 (5 - (2 + 1))),
        setA [("k", RateVal.counter 2 (some 9))] (applyNs none "k")
          (.counter (2 + 1) (if (2:ℤ) + 1 = 1 then some 9 else some 9))) :=
  fixed_window_step none [("k", RateVal.counter 2 (some 9))] "k" 5 9 2 (some 9) 1
    (by decide) (Or.inl rfl)

/-- C6: the sliding-window admission decision uses the cardinality observed
after pruning scores in `[0, now − window_seconds]` but before the current
request's member is added, and the member keyed by `now` ends up in the
stored set even when the request is rejected. -/
theorem sliding_check_anatomy (ns : Option String) (st : RateStore) (key : String)
    (m w : ℤ) (now : ℚ) (ms : List ℚ) (hw : 0 < w)
    (hent : (∃ t0, lookupA st key = some (.zset ms t0)) ∨
      (lookupA st key = none ∧ ms = [])) :
    check_rate_limit ns st key m w true now =
      .ok ((decide (((pruneMs (now - (w : ℚ)) ms).length : ℤ) < m),
            max 0 (m - (pruneMs (now - (w : ℚ)) ms).length - 1)),
        setA st key (.zset (zaddNow now (pruneMs (now - (w : ℚ)) ms)) (some w))) ∧
    now ∈ zaddNow now (pruneMs (now - (w : ℚ)) ms) := by
  have hw' : ¬ w ≤ 0 := not_le.mpr hw
  refine ⟨?_, mem_zaddNow now _⟩
  rcases hent with ⟨t0, h⟩ | ⟨h, hms⟩
  · simp [check_rate_limit, check_rate_limit_sliding, h, hw']
  · subst hms
    simp [check_rate_limit, check_rate_limit_sliding, h, hw']

theorem sliding_check_anatomy_witness :
    check_rate_limit none [("k", RateVal.zset [1, 2] (some 5))] "k" 2 5 true 3 =
      .ok ((decide (((pruneMs (3 - ((5:ℤ) : ℚ)) [1, 2]).length : ℤ) < 2),
            max 0 (2 - (pruneMs (3 - ((5:ℤ) : ℚ)) [1, 2]).length - 1)),
        setA [("k", RateVal.zset [1, 2] (some 5))] "k"
          (.zset (zaddNow 3 (pruneMs (3 - ((5:ℤ) : ℚ)) [1, 2])) (some 5))) ∧
    (3 : ℚ) ∈ zaddNow 3 (pruneMs (3 - ((5:ℤ) : ℚ)) [1, 2]) :=
  sliding_check_anatomy none [("k", RateVal.zset [1, 2] (some 5))] "k" 2 5 3 [1, 2]
    (by decide) (Or.inl ⟨some 5, rfl⟩)

/-- C7 (amended): `max_requests ≤ 0` rejects every request — on every store
state in the sliding variant, and on every absent-or-nonnegative counter
state in the fixed variant (all limiter-created states are such) — while
`window_seconds ≤ 0` is NOT validated: the call reaches the store and
returns a normal `(allowed, remaining)` decision instead of failing fast. -/
theorem rate_limit_edge_cases (ns : Option String) (st : RateStore) (key : String)
    (m w : ℤ) (now : ℚ) :
    (m ≤ 0 → ∀ r st', check_rate_limit ns st key m w true now = .ok (r, st') →
      r.1 = false) ∧
    (m ≤ 0 → ∀ (c : ℕ) (t : Option ℤ) r st',
      check_rate_limit ns (setA st (applyNs ns key) (.counter (c : ℤ) t)) key m w
          false now = .ok (r, st') → r.1 = false) ∧
    (m ≤ 0 → ∀ r st',
      check_rate_limit ns (removeA st (applyNs ns key)) key m w false now
        = .ok (r, st') → r.1 = false) ∧
    (w ≤ 0 → check_rate_limit ns [] key m w true now
      = .ok ((decide ((0:ℤ) < m), max 0 (m - 0 - 1)), [])) ∧
    (w ≤ 0 → check_rate_limit ns [] key m w false now
      = .ok ((decide ((1:ℤ) ≤ m), max 0 (m - 1)), [])) := by
  refine ⟨?_, ?_, ?_, ?_, ?_⟩
  · intro hm r st' h
    rcases hl : lookupA st key with _ | v
    · simp [check_rate_limit, check_rate_limit_sliding, hl] at h
      obtain ⟨hr, -⟩ := h
      subst hr
      exact (fst_mk_eq_false_iff _ _).mpr (by omega)
    · cases v with
      | counter c t => simp [check_rate_limit, check_rate_limit_sliding, hl] at h
      | zset ms t =>
          simp [check_rate_limit, check_rate_limit_sliding, hl] at h
          obtain ⟨hr, -⟩ := h
          subst hr
          exact (fst_mk_eq_false_iff _ _).mpr (by omega)
  · intro hm c t r st' h
    by_cases h1 : (c : ℤ) + 1 = 1
    · simp [check_rate_limit, check_rate_limit_fixed, op_incr, op_expire,
        lookupA_setA_self, h1] at h
      split at h
      · simp at h
      · simp at h
        obtain ⟨hr, -⟩ := h
        subst hr
        exact (fst_mk_eq_false_iff _ _).mpr (by omega)
    · simp [check_rate_limit, check_rate_limit_fixed, op_incr, op_expire,
        lookupA_setA_self, h1] at h
      obtain ⟨hr, -⟩ := h
      subst hr
      exact (fst_mk_eq_false_iff _ _).mpr (by omega)
  · intro hm r st' h
    simp [check_rate_limit, check_rate_limit_fixed, op_incr, op_expire,
      lookupA_removeA_self, lookupA_setA_self] at h
    split at h
    · simp at h
    · simp at h
      obtain ⟨hr, -⟩ := h
      subst hr
      exact (fst_mk_eq_false_iff _ _).mpr (by omega)
  · intro hwle
    simp [check_rate_limit, check_rate_limit_sliding, lookupA, pruneMs, hwle,
      removeA]
  · intro hwle
    simp [check_rate_limit, check_rate_limit_fixed, op_incr, op_expire,
      lookupA, setA, lookupA_setA_self, hwle, removeA]

theorem rate_limit_edge_cases_witness :
    ((false, (0:ℤ)).1 = false) ∧
    check_rate_limit none [] "k" 5 0 true 1
      = .ok ((decide ((0:ℤ) < 5), max 0 (5 - 0 - 1)), []) := by
  constructor
  · exact (rate_limit_edge_cases none [] "k" 0 5 1).1 (by decide) (false, 0)
      [("k", RateVal.zset [1] (some 5))] rfl
  · exact (rate_limit_edge_cases none [] "k" 5 0 1).2.2.2.1 (by decide)

/-- C7 counterexample: a call with `window_seconds = 0` is not rejected by
any fail-fast validation — it goes through to the store and returns a normal
admission decision (here `allowed = true, remaining = 4`), in both variants. -/
theorem rate_limit_no_validation_cex :
    check_rate_limit none [] "k" 5 0 true 1 = .ok ((true, 4), []) ∧
    check_rate_limit none [] "k" 5 0 false 1 = .ok ((true, 4), []) :=
  ⟨rfl, rfl⟩

/-- Expected per-call results of successive sliding-window checks: the `i`-th
collected check (0-based) observes `start + i` accumulated timestamps, so it
returns `allowed = (start + i < m)`, `remaining = max 0 (m − (start+i) − 1)`. -/
def expectedOuts (m : ℤ) (start len : ℕ) : List (Bool × ℤ) :=
  match len with
  | 0 => []
  | l + 1 =>
      (decide ((start : ℤ) < m), max 0 (m - (start : ℤ) - 1)) ::
        expectedOuts m (start + 1) l

theorem expectedOuts_getElem (m : ℤ) (s len i : ℕ) (h : i < len) :
    (expectedOuts m s len)[i]? =
      some (decide (((s + i : ℕ) : ℤ) < m), max 0 (m - ((s + i : ℕ) : ℤ) - 1)) := by
  induction len generalizing s i with
  | zero => omega
  | succ l ih =>
      cases i with
      | zero => simp [expectedOuts]
      | succ j =>
          have hj : j < l := by omega
          rw [expectedOuts]
          simp only [List.getElem?_cons_succ]
          rw [ih (s + 1) j hj]
          have hsj : s + 1 + j = s + (j + 1) := by omega
          rw [hsj]

theorem windowAt_inv (st : RateStore) (key : String) (pre : List ℚ)
    (h : windowAt st key = some pre) :
    (lookupA st key = none ∧ pre = []) ∨
      ∃ t0, lookupA st key = some (.zset pre t0) := by
  unfold windowAt at h
  rcases hl : lookupA st key with _ | v
  · rw [hl] at h
    simp at h
    exact Or.inl ⟨rfl, h⟩
  · cases v with
    | counter c t => rw [hl] at h; simp at h
    | zset ms t =>
        rw [hl] at h
        simp only [Option.some.injEq] at h
        exact Or.inr ⟨t, by rw [h]⟩

/-- One sliding-window check from a window state none of whose members is
pruned and which does not already contain the current timestamp: the count
is the pre-existing cardinality and the timestamp is appended. -/
theorem sliding_step_full (ns : Option String) (st : RateStore) (key : String)
    (m w : ℤ) (t : ℚ) (pre : List ℚ) (hw : 0 < w)
    (hwnd : windowAt st key = some pre)
    (hkeep : ∀ x ∈ pre, ¬(0 ≤ x ∧ x ≤ t - (w : ℚ)))
    (hnotmem : t ∉ pre) :
    check_rate_limit ns st key m w true t =
      .ok ((decide ((pre.length : ℤ) < m), max 0 (m - pre.length - 1)),
        setA st key (.zset (pre ++ [t]) (some w))) := by
  have hw' : ¬ w ≤ 0 := not_le.mpr hw
  have hprune : pruneMs (t - (w : ℚ)) pre = pre := by
    apply List.filter_eq_self.mpr
    intro a ha
    rcases lt_or_le a 0 with hneg | hge
    · simp [not_le.mpr hneg]
    · have h2 : ¬ a ≤ t - (w : ℚ) := fun hle => hkeep a ha ⟨hge, hle⟩
      simp [h2]
  have hadd : zaddNow t pre = pre ++ [t] := if_neg hnotmem
  rcases windowAt_inv st key pre hwnd with ⟨hl, hpre⟩ | ⟨t0, hl⟩
  · subst hpre
    simp [check_rate_limit, check_rate_limit_sliding, hl, hprune, hadd, hw']
  · simp [check_rate_limit, check_rate_limit_sliding, hl, hprune, hadd, hw']

theorem runSliding_spec (ns : Option String) (key : String) (m w : ℤ)
    (hw : 0 < w) (ts : List ℚ) :
    ∀ (st : RateStore) (pre : List ℚ),
      windowAt st key = some pre →
      List.Sorted (· < ·) (pre ++ ts) →
      (∀ a ∈ pre ++ ts, ∀ b ∈ pre ++ ts, b - a < (w : ℚ)) →
      runSliding ns key m w st ts =
        .ok (expectedOuts m pre.length ts.length,
             if ts = [] then st else setA st key (.zset (pre ++ ts) (some w))) := by
  induction ts with
  | nil =>
      intro st pre hwnd _ _
      simp [runSliding, expectedOuts]
  | cons t ts ih =>
      intro st pre hwnd hsort hspan
      have hmem_t : t ∈ pre ++ t :: ts :=
        List.mem_append_right _ (List.mem_cons_self _ _)
      have hx_lt : ∀ x ∈ pre, x < t := fun x hx =>
        (List.pairwise_append.mp hsort).2.2 x hx t (List.mem_cons_self _ _)
      have hnotmem : t ∉ pre := fun hmem => lt_irrefl t (hx_lt t hmem)
      have hkeep : ∀ x ∈ pre, ¬(0 ≤ x ∧ x ≤ t - (w : ℚ)) := by
        rintro x hx ⟨-, hle⟩
        have hbound := hspan x (List.mem_append_left _ hx) t hmem_t
        linarith
      have hstep := sliding_step_full ns st key m w t pre hw hwnd hkeep hnotmem
      have hwnd1 : windowAt (setA st key (RateVal.zset (pre ++ [t]) (some w))) key
          = some (pre ++ [t]) := by
        simp [windowAt, lookupA_setA_self]
      have hassoc : (pre ++ [t]) ++ ts = pre ++ t :: ts := by simp
      have ih' := ih (setA st key (RateVal.zset (pre ++ [t]) (some w))) (pre ++ [t])
        hwnd1 (by rw [hassoc]; exact hsort) (by rw [hassoc]; exact hspan)
      simp only [runSliding, hstep, ih']
      by_cases hts : ts = []
      · subst hts
        simp [expectedOuts, setA_setA]
      · simp only [if_neg hts, List.cons_ne_nil, if_false, setA_setA, hassoc]
        have hlen : (pre ++ [t]).length = pre.length + 1 := by simp
        rw [hlen]
        rfl

/-- C1: starting from an empty window, `N+1` sliding-window checks within one
window (strictly increasing timestamps spanning less than `window_seconds`)
return `allowed = true` with `remaining = N−1, N−2, …, 0` for the first `N`
calls, and the `(N+1)`-th returns `allowed = false, remaining = 0`. -/
theorem sliding_window_boundary (ns : Option String) (key : String) (N w : ℤ)
    (st : RateStore) (ts : List ℚ) (hN : 0 < N) (hw : 0 < w)
    (hempty : windowAt st key = some [])
    (hlen : ts.length = N.toNat + 1)
    (hsorted : List.Sorted (· < ·) ts)
    (hspan : ∀ a ∈ ts, ∀ b ∈ ts, b - a < (w : ℚ)) :
    runSliding ns key N w st ts =
      .ok (expectedOuts N 0 ts.length, setA st key (.zset ts (some w))) ∧
    (∀ i : ℕ, (i : ℤ) < N →
      (expectedOuts N 0 ts.length)[i]? = some (true, N - 1 - i)) ∧
    (expectedOuts N 0 ts.length)[N.toNat]? = some (false, 0) := by
  have hne : ts ≠ [] := by
    intro hnil
    rw [hnil] at hlen
    simp at hlen
  have hrun := runSliding_spec ns key N w hw ts st [] hempty
    (by simpa using hsorted) (by simpa using hspan)
  refine ⟨?_, ?_, ?_⟩
  · rw [hrun, if_neg hne]
    simp
  · intro i hi
    have hiN : i < N.toNat := Int.lt_toNat.mpr hi
    have hilen : i < ts.length := by omega
    rw [expectedOuts_getElem N 0 ts.length i hilen]
    have hcast : (((0 + i : ℕ)) : ℤ) = (i : ℤ) := by norm_num
    rw [hcast]
    have hd : decide ((i : ℤ) < N) = true := decide_eq_true hi
    have hmax : max 0 (N - (i : ℤ) - 1) = N - 1 - i := by
      rw [max_eq_right (by omega)]
      ring
    rw [hd, hmax]
  · have hilen : N.toNat < ts.length := by omega
    rw [expectedOuts_getElem N 0 ts.length N.toNat hilen]
    have hcast : (((0 + N.toNat : ℕ)) : ℤ) = N := by
      rw [Nat.zero_add]
      exact Int.toNat_of_nonneg (le_of_lt hN)
    rw [hcast]
    have hd : decide (N < N) = false := decide_eq_false (lt_irrefl N)
    have hmax : max 0 (N - N - 1) = 0 := max_eq_left (by omega)
    rw [hd, hmax]

theorem sliding_window_boundary_witness :
    runSliding none "k" 2 5 [] [(1:ℚ), 2, 3] =
      .ok (expectedOuts 2 0 3, setA [] "k" (.zset [(1:ℚ), 2, 3] (some 5))) ∧
    (expectedOuts 2 0 3)[(0:ℕ)]? = some (true, 2 - 1 - ((0:ℕ) : ℤ)) ∧
    (expectedOuts 2 0 3)[(1:ℕ)]? = some (true, 2 - 1 - ((1:ℕ) : ℤ)) ∧
    (expectedOuts 2 0 3)[(2:ℤ).toNat]? = some (false, 0) := by
  obtain ⟨h1, h2, h3⟩ := sliding_window_boundary none "k" 2 5 [] [1, 2, 3]
    (by decide) (by decide) rfl rfl (by decide) (by norm_num)
  exact ⟨h1, h2 0 (by decide), h2 1 (by decide), h3⟩

/-! ## Cache-aside layer (`get_or_compute`, the `cache` decorator and
key derivation)

The cache store holds plain strings (written by `set`) and JSON documents
(written by `set_json`); holding the document rather than its serialized
text loses nothing because `json.loads (json.dumps v) = v`, and it makes the
decisive Python conflation visible: an absent key and a stored JSON `null`
both deserialize to `None` (`Option.none`). -/

/-- JSON string escaping as `json.dumps` performs it for the characters that
require it here (quote and backslash; control characters do not occur in the
modelled values). -/
def escapeJson (s : String) : String :=
  s.foldl (fun acc c =>
    if c = '"' then acc ++ "\\\""
    else if c = '\\' then acc ++ "\\\\"
    else acc.push c) ""

mutual

/-- `json.dumps` of one JSON value with the default separators; `sortKeys`
mirrors `sort_keys=True` (each object's items ordered by key). Sorting the
rendered pairs by key is equivalent to sorting the items first, since
rendering a pair does not depend on its position. -/
def jsonDumpsVal (sortKeys : Bool) : JVal → String
  | .bool true => "true"
  | .bool false => "false"
  | .num n => toString n
  | .str s => "\"" ++ escapeJson s ++ "\""
  | .arr xs =>
      "[" ++ String.intercalate ", " (jsonDumpsList sortKeys xs) ++ "]"
  | .obj kvs =>
      let rendered := jsonDumpsObj sortKeys kvs
      let rendered' :=
        if sortKeys then rendered.insertionSort (fun a b => a.1 ≤ b.1)
        else rendered
      "\x7b" ++ String.intercalate ", "
        (rendered'.map (fun kv => "\"" ++ escapeJson kv.1 ++ "\": " ++ kv.2)) ++ "\x7d"

def jsonDumpsList (sortKeys : Bool) : List JVal → List String
  | [] => []
  | x :: xs => jsonDumpsVal sortKeys x :: jsonDumpsList sortKeys xs

def jsonDumpsObj (sortKeys : Bool) : List (String × JVal) → List (String × String)
  | [] => []
  | (k, v) :: kvs => (k, jsonDumpsVal sortKeys v) :: jsonDumpsObj sortKeys kvs

end

/-- `json.dumps` of a Python value: `None` renders as `null`. -/
def jsonDumpsCore (sortKeys : Bool) : Option JVal → String
  | none => "null"
  | some v => jsonDumpsVal sortKeys v

mutual

/-- Python `repr` for the JSON-shaped values in play. -/
def pyRepr : JVal → String
  | .bool true => "True"
  | .bool false => "False"
  | .num n => toString n
  | .str s => "'" ++ s ++ "'"
  | .arr xs => "[" ++ String.intercalate ", " (pyReprList xs) ++ "]"
  | .obj kvs => "\x7b" ++ String.intercalate ", " (pyReprObj kvs) ++ "\x7d"

def pyReprList : List JVal → List String
  | [] => []
  | x :: xs => pyRepr x :: pyReprList xs

def pyReprObj : List (String × JVal) → List String
  | [] => []
  | (k, v) :: kvs => ("'" ++ k ++ "': " ++ pyRepr v) :: pyReprObj kvs

end

/-- Python `str(x)` (`str` of a string is itself, not its repr). -/
def pyStr : PyObj → String
  | none => "None"
  | some (.str s) => s
  | some v => pyRepr v

/-- `_serialize_cache_arg`: strings as-is, numbers via `str`, lists and dicts
via `json.dumps(·, sort_keys=True)`, everything else via `str`. -/
def serialize_cache_arg : PyObj → String
  | some (.str s) => s
  | some (.num n) => toString n
  | some (.arr xs) => jsonDumpsCore true (some (.arr xs))
  | some (.obj kvs) => jsonDumpsCore true (some (.obj kvs))
  | arg => pyStr arg

/-- `_generate_cache_key(func, key_prefix, namespace, args, kwargs)`:
namespace segment (when not None), prefix segment (when not None), function
name, one segment per positional argument, then one `key=value` segment per
keyword argument sorted by key, all joined with `":"`. -/
def generate_cache_key (funcName : String) (keyPref nsParam : Option String)
    (args : List PyObj) (kwargs : List (String × PyObj)) : String :=
  let parts :=
    (match nsParam with | some n => [n] | none => []) ++
    (match keyPref with | some p => [p] | none => []) ++
    [funcName] ++
    args.map serialize_cache_arg ++
    (kwargs.insertionSort (fun a b => a.1 ≤ b.1)).map
      (fun kv => kv.1 ++ "=" ++ serialize_cache_arg kv.2)
  String.intercalate ":" parts

/-- A cache-store value: a plain string written by `set`, or a JSON document
written by `set_json` (`none` being the null document). -/
inductive CVal
  | str (s : String)
  | jdoc (d : Option JVal)

/-- A cache-store entry: value plus optional TTL. -/
structure CEntry where
  val : CVal
  ttl : Option ℤ

/-- Cache execution state: the keyspace plus the schedule of injected store
connectivity faults (one bit consumed per store call; `true` = that call
raises a connectivity error). -/
structure CState where
  store : List (String × CEntry)
  faults : List Bool

def popFault (s : CState) : Bool × CState :=
  match s.faults with
  | [] => (false, s)
  | b :: rest => (b, { s with faults := rest })

/-- `json.loads` applied to a value stored by plain `set`. The only plain
values written in the modelled scenarios are integer-literal sentinels
(the lock value `"1"`), so only those decode; other plain strings raise, and
none ever reaches `get_json` in the theorems below. -/
def decodePlain (s : String) : Except Unit PyObj :=
  match s.toInt? with
  | some n => .ok (some (.num n))
  | none => .error ()

/-- `get_json(key)`: namespaced read; an absent key and a stored JSON null
both come back as Python `None`; faults and undecodable values raise. -/
def op_get_json (ns : Option String) (key : String) (s : CState) :
    Except Unit PyObj × CState :=
  let (f, s') := popFault s
  if f then (.error (), s')
  else
    match lookupA s'.store (applyNs ns key) with
    | none => (.ok none, s')
    | some e =>
        match e.val with
        | .jdoc d => (.ok d, s')
        | .str raw => (decodePlain raw, s')

/-- The serialized text a `get` would return for a stored value. -/
def rawText : CVal → String
  | .str s => s
  | .jdoc d => jsonDumpsCore false d

/-- `get(key)`: namespaced read of the raw stored text. -/
def op_get (ns : Option String) (key : String) (s : CState) :
    Except Unit (Option String) × CState :=
  let (f, s') := popFault s
  if f then (.error (), s')
  else (.ok ((lookupA s'.store (applyNs ns key)).map (fun e => rawText e.val)), s')

/-- `set(key, value, ex=…, nx=…)`: namespaced write; with `nx` and the key
present nothing is written and the call reports `False`. -/
def op_set (ns : Option String) (key value : String) (ex : Option ℤ)
    (nx : Bool) (s : CState) : Except Unit Bool × CState :=
  let (f, s') := popFault s
  if f then (.error (), s')
  else
    let nk := applyNs ns key
    if nx && (lookupA s'.store nk).isSome then (.ok false, s')
    else (.ok true, { s' with store := setA s'.store nk ⟨.str value, ex⟩ })

/-- `set_json(key, value, ex=…)`: namespaced write of the JSON document. -/
def op_set_json (ns : Option String) (key : String) (value : PyObj)
    (ex : Option ℤ) (s : CState) : Except Unit Bool × CState :=
  let (f, s') := popFault s
  if f then (.error (), s')
  else (.ok true, { s' with store := setA s'.store (applyNs ns key) ⟨.jdoc value, ex⟩ })

/-- `delete(key)` for a single key: namespaced; returns the removal count. -/
def op_delete (ns : Option String) (key : String) (s : CState) :
    Except Unit ℕ × CState :=
  let (f, s') := popFault s
  if f then (.error (), s')
  else
    let nk := applyNs ns key
    ((.ok (if (lookupA s'.store nk).isSome then 1 else 0) : Except Unit ℕ),
     { s' with store := removeA s'.store nk })

/-- Python `ex or 60`: both `None` and `0` are falsy. -/
def exOr60 : Option ℤ → ℤ
  | none => 60
  | some e => if e = 0 then 60 else e

/-- The read `get_or_compute` performs: `get_json` when `serialize_json`,
else plain `get`, whose string result is the value returned on a hit. -/
def gocRead (ns : Option String) (key : String) (serializeJson : Bool)
    (s : CState) : Except Unit PyObj × CState :=
  if serializeJson then op_get_json ns key s
  else
    match op_get ns key s with
    | (.ok v, s') => (.ok (v.map JVal.str), s')
    | (.error e, s') => (.error e, s')

/-- How a cache computation ends abnormally: a store connectivity/decode
error, or an error raised by the caller-supplied compute function. -/
inductive GErr
  | conn
  | compute
deriving DecidableEq

/-- `get_or_compute(key, compute, ex, serialize_json)`, control-flow
faithful: there is no `try`/`except` in the source function, so the initial
read, the post-lock re-read, the value write and the lock delete all
propagate store errors, and a `compute` error propagates before the write
and the lock cleanup are reached. The lock is taken with
`set(lock_key, "1", ex=ex or 60, nx=True)`. The third component counts the
invocations of `compute`. -/
def get_or_compute (ns : Option String) (key : String)
    (compute : Except Unit PyObj) (ex : Option ℤ) (serializeJson : Bool)
    (s0 : CState) : Except GErr PyObj × CState × ℕ :=
  match gocRead ns key serializeJson s0 with
  | (.error _, s1) => (.error .conn, s1, 0)
  | (.ok cached, s1) =>
      if cached.isSome then (.ok cached, s1, 0)
      else
        match op_set ns (key ++ ":lock") "1" (some (exOr60 ex)) true s1 with
        | (.error _, s2) => (.error .conn, s2, 0)
        | (.ok lockAcquired, s2) =>
            match (if lockAcquired then ((.ok none : Except Unit PyObj), s2)
                   else gocRead ns key serializeJson s2) with
            | (.error _, s3) => (.error .conn, s3, 0)
            | (.ok cached2, s3) =>
                if cached2.isSome then (.ok cached2, s3, 0)
                else
                  match compute with
                  | .error _ => (.error .compute, s3, 1)
                  | .ok result =>
                      match (if serializeJson then op_set_json ns key result ex s3
                             else op_set ns key (pyStr result) ex false s3) with
                      | (.error _, s4) => (.error .conn, s4, 1)
                      | (.ok _, s4) =>
                          match op_delete ns (key ++ ":lock") s4 with
                          | (.error _, s5) => (.error .conn, s5, 1)
                          | (.ok _, s5) => (.ok result, s5, 1)

/-- The wrapper the `cache` decorator builds around `func`: the initial read
is guarded (`try`/`except`: a failing read degrades to a miss); with
`prevent_thundering_herd` the lock is taken with `ex=ttl` (that `set` is NOT
guarded, so its failure propagates) and the retry read is guarded; a
`skip_cache_if` hit suppresses the write; the result write is guarded (its
failure still returns the result); the lock is never deleted here — it only
expires via its TTL. -/
def cacheWrapper (ns : Option String) (ttl : ℤ) (keyPref nsParam : Option String)
    (funcName : String) (args : List PyObj) (kwargs : List (String × PyObj))
    (skipCacheIf : Option (PyObj → Bool)) (preventHerd : Bool)
    (func : Except Unit PyObj) (s0 : CState) : Except GErr PyObj × CState × ℕ :=
  let cacheKey := generate_cache_key funcName keyPref nsParam args kwargs
  let (r1, s1) := op_get_json ns cacheKey s0
  let hit : PyObj := match r1 with
    | .ok c => c
    | .error _ => none
  if hit.isSome then (.ok hit, s1, 0)
  else
    match (if preventHerd then
             match op_set ns (cacheKey ++ ":lock") "1" (some ttl) true s1 with
             | (.error e, s2) => ((.error e : Except Unit PyObj), s2)
             | (.ok lockAcquired, s2) =>
                 if lockAcquired then ((.ok none : Except Unit PyObj), s2)
                 else
                   match op_get_json ns cacheKey s2 with
                   | (.ok c, s3) => ((.ok c : Except Unit PyObj), s3)
                   | (.error _, s3) => ((.ok none : Except Unit PyObj), s3)
           else ((.ok none : Except Unit PyObj), s1)) with
    | (.error _, s3) => (.error .conn, s3, 0)
    | (.ok cached2, s3) =>
        if cached2.isSome then (.ok cached2, s3, 0)
        else
          match func with
          | .error _ => (.error .compute, s3, 1)
          | .ok result =>
              if (match skipCacheIf with
                  | some p => p result
                  | none => false) then (.ok result, s3, 1)
              else
                match op_set_json ns cacheKey result (some ttl) s3 with
                | (_, s4) => (.ok result, s4, 1)

/-- Two immediately successive `get_or_compute(key, compute, ex)` calls
(JSON mode) against a store where the key and its lock start absent, with no
store faults: yields (first result, first compute count, second result,
second compute count). -/
def gocTwice (ns : Option String) (key : String) (compute : Except Unit PyObj)
    (ex : Option ℤ) (st : List (String × CEntry)) :
    (Except GErr PyObj × ℕ) × (Except GErr PyObj × ℕ) :=
  let st0 := removeA (removeA st (applyNs ns key)) (applyNs ns (key ++ ":lock"))
  let r1 := get_or_compute ns key compute ex true ⟨st0, []⟩
  let r2 := get_or_compute ns key compute ex true ⟨r1.2.1.store, []⟩
  ((r1.1, r1.2.2), (r2.1, r2.2.2))

/-- C2 (amended): with the key and its lock initially absent and a compute
returning a non-None value, the first `get_or_compute` invokes compute
exactly once, stores and returns its value, and the immediately following
call returns the same value from the cache without invoking compute. (For a
None-returning compute this fails: see the counterexample and C10.) -/
theorem goc_idempotent (ns : Option String) (key : String) (v : JVal)
    (ex : Option ℤ) (st : List (String × CEntry)) :
    gocTwice ns key (.ok (some v)) ex st
      = ((.ok (some v), 1), (.ok (some v), 0)) := by
  have hlk : applyNs ns (key ++ ":lock") ≠ applyNs ns key := applyNs_lock_ne ns key
  simp [gocTwice, get_or_compute, gocRead, op_get_json, op_set, op_set_json,
    op_delete, popFault, lookupA_setA_self, lookupA_setA_ne, lookupA_removeA_self,
    lookupA_removeA_ne, hlk, Ne.symm hlk]

/-- C2 counterexample: a compute returning Python `None` is invoked again by
the second call (the stored JSON null is indistinguishable from a miss), so
the two calls together invoke it twice, not once. -/
theorem goc_idempotent_cex :
    gocTwice none "k" (.ok none) none [] = ((.ok none, 1), (.ok none, 1)) ∧
    ¬ (1 + 1 = 1) := ⟨rfl, by decide⟩

/-- C3 (amended): when `compute` succeeds (no store faults), the lock key is
absent once the call completes, whatever the lock's initial state; when
`compute` raises, cleanup is skipped and the lock key survives the call —
but it always carries the TTL `ex or 60` it was created with, so it expires
within that TTL. -/
theorem goc_lock_cleanup (ns : Option String) (key : String) (v : PyObj)
    (ex : Option ℤ) (st : List (String × CEntry)) :
    lookupA ((get_or_compute ns key (.ok v) ex true
        ⟨removeA st (applyNs ns key), []⟩).2.1.store)
      (applyNs ns (key ++ ":lock")) = none ∧
    (get_or_compute ns key (.error ()) ex true
        ⟨removeA (removeA st (applyNs ns key)) (applyNs ns (key ++ ":lock")), []⟩).1
      = .error .compute ∧
    lookupA ((get_or_compute ns key (.error ()) ex true
        ⟨removeA (removeA st (applyNs ns key)) (applyNs ns (key ++ ":lock")), []⟩).2.1.store)
      (applyNs ns (key ++ ":lock"))
      = some ⟨.str "1", some (exOr60 ex)⟩ := by
  have hlk : applyNs ns (key ++ ":lock") ≠ applyNs ns key := applyNs_lock_ne ns key
  refine ⟨?_, ?_, ?_⟩
  · rcases hl : lookupA (removeA st (applyNs ns key)) (applyNs ns (key ++ ":lock"))
        with _ | e
    · simp [get_or_compute, gocRead, op_get_json, op_set, op_set_json, op_delete,
        popFault, lookupA_setA_self, lookupA_setA_ne, lookupA_removeA_self,
        lookupA_removeA_ne, hlk, Ne.symm hlk, hl]
    · simp [get_or_compute, gocRead, op_get_json, op_set, op_set_json, op_delete,
        popFault, lookupA_setA_self, lookupA_setA_ne, lookupA_removeA_self,
        lookupA_removeA_ne, hlk, Ne.symm hlk, hl]
  · simp [get_or_compute, gocRead, op_get_json, op_set, popFault,
      lookupA_setA_self, lookupA_setA_ne, lookupA_removeA_self,
      lookupA_removeA_ne, hlk, Ne.symm hlk]
  · simp [get_or_compute, gocRead, op_get_json, op_set, popFault,
      lookupA_setA_self, lookupA_setA_ne, lookupA_removeA_self,
      lookupA_removeA_ne, hlk, Ne.symm hlk]

/-- C3 counterexample: with an erroring compute the lock key is still present
when `get_or_compute` completes — the unconditional cleanup the claim
describes does not exist (there is no `try`/`finally` around `compute`). -/
theorem goc_lock_cleanup_cex :
    (lookupA ((get_or_compute none "k" (.error ()) (some 60) true
        ⟨[], []⟩).2.1.store) "k:lock").isSome = true := rfl

/-- C4 (amended): a store failure on the initial read is swallowed by the
`cache` decorator wrapper — the wrapped function is still invoked and its
result returned — while `get_or_compute` has no guard there: the
initial-read error propagates and compute is never invoked. -/
theorem initial_read_failure (ns : Option String) (key : String) (v : PyObj)
    (ex : Option ℤ) (st : List (String × CEntry)) (ttl : ℤ)
    (keyPref nsParam : Option String) (funcName : String)
    (args : List PyObj) (kwargs : List (String × PyObj)) :
    (cacheWrapper ns ttl keyPref nsParam funcName args kwargs none false
        (.ok v) ⟨st, [true]⟩).1 = .ok v ∧
    (cacheWrapper ns ttl keyPref nsParam funcName args kwargs none false
        (.ok v) ⟨st, [true]⟩).2.2 = 1 ∧
    get_or_compute ns key (.ok v) ex true ⟨st, [true]⟩
      = (.error .conn, ⟨st, []⟩, 0) := by
  refine ⟨?_, ?_, ?_⟩ <;>
    simp [cacheWrapper, get_or_compute, gocRead, op_get_json, op_set_json,
      popFault]

/-- C4 counterexample: `get_or_compute` propagates a failing initial read
instead of swallowing it — the call errors and compute is never invoked. -/
theorem goc_read_failure_cex :
    get_or_compute none "k" (.ok (some (.num 7))) none true ⟨[], [true]⟩
      = (.error .conn, ⟨[], []⟩, 0) := rfl

/-- C10: a compute result of Python `None` is written to the store as the
JSON null document, but every later JSON read of that key returns `None`,
which is indistinguishable from a miss — so a null result is never served
from the cache and compute runs again on every later call, both for
`get_or_compute` and for a `cache`-decorated function. -/
theorem null_result_never_cached (ns : Option String) (key : String)
    (ex : Option ℤ) (st : List (String × CEntry)) (t : Option ℤ) (ttl : ℤ)
    (keyPref nsParam : Option String) (funcName : String)
    (args : List PyObj) (kwargs : List (String × PyObj)) :
    lookupA ((get_or_compute ns key (.ok none) ex true
        ⟨removeA (removeA st (applyNs ns key)) (applyNs ns (key ++ ":lock")),
         []⟩).2.1.store)
      (applyNs ns key) = some ⟨.jdoc none, ex⟩ ∧
    (get_or_compute ns key (.ok none) ex true
        ⟨setA st (applyNs ns key) ⟨.jdoc none, t⟩, []⟩).2.2 = 1 ∧
    lookupA ((cacheWrapper ns ttl keyPref nsParam funcName args kwargs none false
        (.ok none)
        ⟨removeA st (applyNs ns (generate_cache_key funcName keyPref nsParam args kwargs)),
         []⟩).2.1.store)
      (applyNs ns (generate_cache_key funcName keyPref nsParam args kwargs))
      = some ⟨.jdoc none, some ttl⟩ ∧
    (cacheWrapper ns ttl keyPref nsParam funcName args kwargs none false
        (.ok none)
        ⟨setA st (applyNs ns (generate_cache_key funcName keyPref nsParam args kwargs))
            ⟨.jdoc none, t⟩, []⟩).2.2 = 1 := by
  have hlk : applyNs ns (key ++ ":lock") ≠ applyNs ns key := applyNs_lock_ne ns key
  refine ⟨?_, ?_, ?_, ?_⟩
  · simp [get_or_compute, gocRead, op_get_json, op_set, op_set_json, op_delete,
      popFault, lookupA_setA_self, lookupA_setA_ne, lookupA_removeA_self,
      lookupA_removeA_ne, hlk, Ne.symm hlk]
  · rcases hl : lookupA (setA st (applyNs ns key) ⟨.jdoc none, t⟩)
        (applyNs ns (key ++ ":lock")) with _ | e
    · simp [get_or_compute, gocRead, op_get_json, op_set, op_set_json, op_delete,
        popFault, lookupA_setA_self, lookupA_setA_ne, lookupA_removeA_self,
        lookupA_removeA_ne, hlk, Ne.symm hlk, hl]
    · simp [get_or_compute, gocRead, op_get_json, op_set, op_set_json, op_delete,
        popFault, lookupA_setA_self, lookupA_setA_ne, lookupA_removeA_self,
        lookupA_removeA_ne, hlk, Ne.symm hlk, hl]
  · simp [cacheWrapper, op_get_json, op_set_json, popFault,
      lookupA_setA_self, lookupA_removeA_self]
  · simp [cacheWrapper, op_get_json, op_set_json, popFault, lookupA_setA_self]

instance (α : Type) : IsTotal (String × α) (fun a b => a.1 ≤ b.1) :=
  ⟨fun a b => le_total a.1 b.1⟩

instance (α : Type) : IsTrans (String × α) (fun a b => a.1 ≤ b.1) :=
  ⟨fun _ _ _ h1 h2 => le_trans h1 h2⟩

instance (α : Type) : IsAntisymm (String × α) (fun a b => a.1 < b.1) :=
  ⟨fun _ _ h1 h2 => absurd h1 (lt_asymm h2)⟩

theorem sorted_lt_of_sorted_le_nodup {α : Type} (l : List (String × α))
    (h : (l.map Prod.fst).Nodup)
    (hs : List.Sorted (fun a b : String × α => a.1 ≤ b.1) l) :
    List.Sorted (fun a b : String × α => a.1 < b.1) l := by
  rw [List.Nodup, List.pairwise_map] at h
  exact (hs.and h).imp (fun hab => lt_of_le_of_ne hab.1 hab.2)

/-- C8: cache-key derivation is deterministic in keyword-argument order: two
kwargs mappings holding the same key/value pairs in different insertion
orders produce the same cache key. -/
theorem cache_key_kwargs_order (funcName : String) (keyPref nsParam : Option String)
    (args : List PyObj) (k1 k2 : List (String × PyObj))
    (hperm : List.Perm k1 k2) (hnodup : (k1.map Prod.fst).Nodup) :
    generate_cache_key funcName keyPref nsParam args k1 =
      generate_cache_key funcName keyPref nsParam args k2 := by
  have key_eq : k1.insertionSort (fun a b => a.1 ≤ b.1)
      = k2.insertionSort (fun a b => a.1 ≤ b.1) := by
    have hp1 : List.Perm (k1.insertionSort (fun a b => a.1 ≤ b.1)) k1 :=
      List.perm_insertionSort _ _
    have hp2 : List.Perm (k2.insertionSort (fun a b => a.1 ≤ b.1)) k2 :=
      List.perm_insertionSort _ _
    have hs1 : List.Sorted (fun a b : String × PyObj => a.1 ≤ b.1)
        (k1.insertionSort (fun a b => a.1 ≤ b.1)) := List.sorted_insertionSort _ _
    have hs2 : List.Sorted (fun a b : String × PyObj => a.1 ≤ b.1)
        (k2.insertionSort (fun a b => a.1 ≤ b.1)) := List.sorted_insertionSort _ _
    have hnodup2 : (k2.map Prod.fst).Nodup :=
      ((hperm.map Prod.fst).nodup_iff).mp hnodup
    have hn1 : ((k1.insertionSort (fun a b => a.1 ≤ b.1)).map Prod.fst).Nodup :=
      ((hp1.map Prod.fst).nodup_iff).mpr hnodup
    have hn2 : ((k2.insertionSort (fun a b => a.1 ≤ b.1)).map Prod.fst).Nodup :=
      ((hp2.map Prod.fst).nodup_iff).mpr hnodup2
    exact List.eq_of_perm_of_sorted (hp1.trans (hperm.trans hp2.symm))
      (sorted_lt_of_sorted_le_nodup _ hn1 hs1)
      (sorted_lt_of_sorted_le_nodup _ hn2 hs2)
  unfold generate_cache_key
  rw [key_eq]

theorem cache_key_kwargs_order_witness :
    generate_cache_key "f" (some "p") (some "app") [some (.num 7)]
        [("b", some (.num 1)), ("a", some (.str "x"))] =
      generate_cache_key "f" (some "p") (some "app") [some (.num 7)]
        [("a", some (.str "x")), ("b", some (.num 1))] :=
  cache_key_kwargs_order "f" (some "p") (some "app") [some (.num 7)]
    [("b", some (.num 1)), ("a", some (.str "x"))]
    [("a", some (.str "x")), ("b", some (.num 1))]
    (List.Perm.swap ("a", some (JVal.str "x")) ("b", some (JVal.num 1)) [])
    (by decide)

theorem sliding_touches_only_raw_key (ns : Option String) (st : RateStore)
    (key : String) (m w : ℤ) (now : ℚ) (r : Bool × ℤ) (st' : RateStore)
    (h : check_rate_limit ns st key m w true now = .ok (r, st'))
    (k' : String) (hk : k' ≠ key) : lookupA st' k' = lookupA st k' := by
  rcases hl : lookupA st key with _ | v
  · simp [check_rate_limit, check_rate_limit_sliding, hl] at h
    obtain ⟨-, hst⟩ := h
    subst hst
    split
    · exact lookupA_removeA_ne st key k' (Ne.symm hk)
    · exact lookupA_setA_ne st key k' _ (Ne.symm hk)
  · cases v with
    | counter c t => simp [check_rate_limit, check_rate_limit_sliding, hl] at h
    | zset ms t =>
        simp [check_rate_limit, check_rate_limit_sliding, hl] at h
        obtain ⟨-, hst⟩ := h
        subst hst
        split
        · exact lookupA_removeA_ne st key k' (Ne.symm hk)
        · exact lookupA_setA_ne st key k' _ (Ne.symm hk)

theorem fixed_touches_only_ns_key (ns : Option String) (st : RateStore)
    (key : String) (m w : ℤ) (now : ℚ) (r : Bool × ℤ) (st' : RateStore)
    (h : check_rate_limit ns st key m w false now = .ok (r, st'))
    (k' : String) (hk : k' ≠ applyNs ns key) : lookupA st' k' = lookupA st k' := by
  by_cases hw2 : w ≤ 0
  · rcases hl : lookupA st (applyNs ns key) with _ | v
    · simp [check_rate_limit, check_rate_limit_fixed, op_incr, op_expire, hl,
        lookupA_setA_self, hw2] at h
      obtain ⟨-, hst⟩ := h
      subst hst
      rw [lookupA_removeA_ne _ _ _ (Ne.symm hk), lookupA_setA_ne _ _ _ _ (Ne.symm hk)]
    · cases v with
      | zset ms t => simp [check_rate_limit, check_rate_limit_fixed, op_incr, hl] at h
      | counter c t =>
          by_cases h1 : c + 1 = 1
          · simp [check_rate_limit, check_rate_limit_fixed, op_incr, op_expire, hl,
              lookupA_setA_self, hw2, h1] at h
            obtain ⟨-, hst⟩ := h
            subst hst
            rw [lookupA_removeA_ne _ _ _ (Ne.symm hk),
              lookupA_setA_ne _ _ _ _ (Ne.symm hk)]
          · simp [check_rate_limit, check_rate_limit_fixed, op_incr, op_expire, hl,
              h1] at h
            obtain ⟨-, hst⟩ := h
            subst hst
            rw [lookupA_setA_ne _ _ _ _ (Ne.symm hk)]
  · rcases hl : lookupA st (applyNs ns key) with _ | v
    · simp [check_rate_limit, check_rate_limit_fixed, op_incr, op_expire, hl,
        lookupA_setA_self, hw2, setA_setA] at h
      obtain ⟨-, hst⟩ := h
      subst hst
      rw [lookupA_setA_ne _ _ _ _ (Ne.symm hk)]
    · cases v with
      | zset ms t => simp [check_rate_limit, check_rate_limit_fixed, op_incr, hl] at h
      | counter c t =>
          by_cases h1 : c + 1 = 1
          · simp [check_rate_limit, check_rate_limit_fixed, op_incr, op_expire, hl,
              lookupA_setA_self, hw2, h1, setA_setA] at h
            obtain ⟨-, hst⟩ := h
            subst hst
            rw [lookupA_setA_ne _ _ _ _ (Ne.symm hk)]
          · simp [check_rate_limit, check_rate_limit_fixed, op_incr, op_expire, hl,
              h1] at h
            obtain ⟨-, hst⟩ := h
            subst hst
            rw [lookupA_setA_ne _ _ _ _ (Ne.symm hk)]

/-- C9: with a non-empty configured namespace, the plain-key operations
(`set`, `set_json`, `get_json`, `delete`, and the fixed-window path through
`incr`/`expire`) address the prefixed key `"<ns>:<key>"` via
`_apply_namespace`, while the sliding-window pipeline issues its commands on
the raw unprefixed `key`; consequently the two rate-limit variants use
different store keys and leave each other's state untouched. -/
theorem namespace_split_keys (n : String) (hn : n ≠ "") (key : String)
    (st : RateStore) (m w m2 w2 : ℤ) (now : ℚ)
    (cst : List (String × CEntry)) (v : String) (ex : Option ℤ) (d : PyObj) :
    applyNs (some n) key = n ++ ":" ++ key ∧
    n ++ ":" ++ key ≠ key ∧
    (op_set (some n) key v ex false ⟨cst, []⟩).2.store
      = setA cst (n ++ ":" ++ key) ⟨.str v, ex⟩ ∧
    (op_set_json (some n) key d ex ⟨cst, []⟩).2.store
      = setA cst (n ++ ":" ++ key) ⟨.jdoc d, ex⟩ ∧
    (op_get_json (some n) key ⟨setA cst (n ++ ":" ++ key) ⟨.jdoc d, ex⟩, []⟩).1
      = .ok d ∧
    (op_delete (some n) key ⟨cst, []⟩).2.store = removeA cst (n ++ ":" ++ key) ∧
    (∀ r st', check_rate_limit (some n) st key m w true now = .ok (r, st') →
      ∀ k', k' ≠ key → lookupA st' k' = lookupA st k') ∧
    (∀ r st', check_rate_limit (some n) st key m2 w2 false now = .ok (r, st') →
      ∀ k', k' ≠ n ++ ":" ++ key → lookupA st' k' = lookupA st k') ∧
    (∀ r st', check_rate_limit (some n) st key m w true now = .ok (r, st') →
      lookupA st' (n ++ ":" ++ key) = lookupA st (n ++ ":" ++ key)) ∧
    (∀ r st', check_rate_limit (some n) st key m2 w2 false now = .ok (r, st') →
      lookupA st' key = lookupA st key) := by
  have hA : applyNs (some n) key = n ++ ":" ++ key := by simp [applyNs, hn]
  have hne : n ++ ":" ++ key ≠ key := by
    intro hcontra
    have hlen := congrArg String.length hcontra
    rw [String.length_append, String.length_append] at hlen
    have h1 : (":" : String).length = 1 := rfl
    omega
  refine ⟨hA, hne, ?_, ?_, ?_, ?_, ?_, ?_, ?_, ?_⟩
  · simp [op_set, popFault, hA]
  · simp [op_set_json, popFault, hA]
  · simp [op_get_json, popFault, hA, lookupA_setA_self]
  · simp [op_delete, popFault, hA]
  · intro r st' h k' hk
    exact sliding_touches_only_raw_key (some n) st key m w now r st' h k' hk
  · intro r st' h k' hk
    exact fixed_touches_only_ns_key (some n) st key m2 w2 now r st' h k'
      (by rw [hA]; exact hk)
  · intro r st' h
    exact sliding_touches_only_raw_key (some n) st key m w now r st' h
      (n ++ ":" ++ key) hne
  · intro r st' h
    exact fixed_touches_only_ns_key (some n) st key m2 w2 now r st' h key
      (by rw [hA]; exact Ne.symm hne)

theorem namespace_split_keys_witness :
    applyNs (some "app") "k" = "app" ++ ":" ++ "k" ∧
    ("app" ++ ":" ++ "k" : String) ≠ "k" ∧
    lookupA (setA [("app:k", RateVal.counter 2 (some 9))] "k"
        (RateVal.zset [1] (some 5))) ("app" ++ ":" ++ "k")
      = lookupA [("app:k", RateVal.counter 2 (some 9))] ("app" ++ ":" ++ "k") := by
  obtain ⟨h1, h2, -, -, -, -, -, -, h9, -⟩ :=
    namespace_split_keys "app" (by decide) "k"
      [("app:k", RateVal.counter 2 (some 9))] 5 5 5 5 1 [] "v" none none
  exact ⟨h1, h2, h9 (true, 4)
    (setA [("app:k", RateVal.counter 2 (some 9))] "k" (RateVal.zset [1] (some 5)))
    rfl⟩
